import Mathlib

/-!
Verification of the model_hub artifact synchronization and acquisition
pipeline (src/common/hf_client.py, src/common/models.py,
src/worker_service/tasks.py) against its specification.

The embedding models the catalog rows (ModelRepo, ModelArtifact, Job) as
records, the SQLAlchemy async session as an explicit pair of a staged and a
committed database (every mutation edits the staged copy; `commit` publishes
the staged copy, flushing all pending changes at once, exactly as the ORM
does), the filesystem as association lists for the temp area and the blob
store, and the external HuggingFace client as environment parameters
(listing result, per-file download result, fetched bytes, and the SHA-256
hex digest treated as an abstract function of the absorbed byte stream).
-/

namespace ModelHub

/-! ## Status enumerations (src/common/models.py) -/

inductive RepoStatus where
  | registered
  | synced
  | error
deriving DecidableEq

inductive ArtifactType where
  | model
  | config
  | tokenizer
  | other
deriving DecidableEq

inductive DownloadStatus where
  | pending
  | downloading
  | completed
  | failed
deriving DecidableEq

inductive JobStatus where
  | pending
  | running
  | completed
  | failed
deriving DecidableEq

/-- ArtifactType(s) as used on the values produced by classify_file_type;
the Python enum constructor raises on any other string, which cannot occur
on that call site, so the fallback branch is unreachable there. -/
def ArtifactType.ofString (s : String) : ArtifactType :=
  if s = "model" then ArtifactType.model
  else if s = "config" then ArtifactType.config
  else if s = "tokenizer" then ArtifactType.tokenizer
  else ArtifactType.other

/-! ## String helpers

Structural character-list versions of `str.lower`, `str.endswith` and the
`in` substring test, so every definition evaluates inside the kernel. -/

/-- listLeads l pat: pat is a leading segment of l. -/
def listLeads : List Char → List Char → Bool
  | _, [] => true
  | [], _ :: _ => false
  | a :: as, b :: bs => a == b && listLeads as bs

/-- listHasSub l pat: pat occurs contiguously somewhere inside l. -/
def listHasSub (l pat : List Char) : Bool :=
  match l with
  | [] => pat == []
  | _ :: rest => listLeads l pat || listHasSub rest pat

def strLower (s : String) : String := String.mk (s.data.map Char.toLower)

def strEndsWith (s pat : String) : Bool := listLeads s.data.reverse pat.data.reverse

def strContains (s pat : String) : Bool := listHasSub s.data pat.data

/-! ## Registry client pure helpers (src/common/hf_client.py) -/

/-- Model-weight extensions, from HFClient.classify_file_type. -/
def model_extensions : List String :=
  [".safetensors", ".bin", ".pt", ".pth", ".gguf", ".onnx", ".pb"]

/-- classify_file_type from src/common/hf_client.py lines 158-190: lowercase
the path; model-weight extension wins; then a path containing "config" and
ending in ".json" is config; then a path containing "tokenizer" or "vocab"
is tokenizer; else other. -/
def classify_file_type (file_path : String) : String :=
  let path_lower := strLower file_path
  if model_extensions.any (fun ext => strEndsWith path_lower ext) then "model"
  else if strContains path_lower "config" && strEndsWith path_lower ".json" then "config"
  else if strContains path_lower "tokenizer" || strContains path_lower "vocab" then "tokenizer"
  else "other"

/-! ## Chunked hashing (HFClient.compute_file_hash, lines 142-156)

The Python code feeds the file to a SHA-256 hasher in 4096-byte reads; the
hex digest of the hasher is, by the hashlib contract, a function of the
concatenation of all bytes passed to update.  We model the digest as an
abstract function `hexdigest` of that absorbed byte stream. -/

/-- Cut a byte list into successive chunks of at most 4096 bytes; the fuel
argument (instantiated with the list length) only makes the recursion
structural. -/
def chunks4096Fuel : Nat → List Nat → List (List Nat)
  | _, [] => []
  | 0, _ :: _ => []
  | fuel + 1, x :: xs => (x :: xs).take 4096 :: chunks4096Fuel fuel ((x :: xs).drop 4096)

def chunks4096 (l : List Nat) : List (List Nat) := chunks4096Fuel l.length l

/-- The byte stream absorbed by the hasher: the chunks of the file fed to
update one after the other. -/
def sha256_absorbed (bytes : List Nat) : List Nat :=
  (chunks4096 bytes).foldl (fun acc c => acc ++ c) []

/-- compute_file_hash: hex digest of the hasher after absorbing the file in
4096-byte reads. -/
def compute_file_hash (hexdigest : List Nat → String) (bytes : List Nat) : String :=
  hexdigest (sha256_absorbed bytes)

/-! ## Catalog rows and database -/

structure FileInfo where
  path : String
  size : Int
  blob_id : String
deriving DecidableEq

structure ModelRepo where
  id : Nat
  repo_id : String
  status : RepoStatus
  updated_at : Nat
deriving DecidableEq

structure ModelArtifact where
  id : Nat
  model_repo_id : Nat
  file_path : String
  file_type : ArtifactType
  size_bytes : Int
  content_hash : Option String
  download_status : DownloadStatus
  local_path : Option String
  last_verified_at : Option Nat
deriving DecidableEq

structure Job where
  id : Nat
  status : JobStatus
  logs : Option String
deriving DecidableEq

structure DB where
  repos : List ModelRepo
  artifacts : List ModelArtifact
  jobs : List Job
  next_id : Nat
deriving DecidableEq

def DB.findRepo (db : DB) (repo_id : String) : Option ModelRepo :=
  db.repos.find? (fun r => r.repo_id == repo_id)

def DB.getRepo (db : DB) (rid : Nat) : Option ModelRepo :=
  db.repos.find? (fun r => r.id == rid)

def DB.getJob (db : DB) (jid : Nat) : Option Job :=
  db.jobs.find? (fun j => j.id == jid)

def DB.setJob (db : DB) (jid : Nat) (st : JobStatus) (lg : String) : DB :=
  { db with jobs := db.jobs.map (fun j => if j.id == jid then { j with status := st, logs := some lg } else j) }

def DB.getArtifact (db : DB) (aid : Nat) : Option ModelArtifact :=
  db.artifacts.find? (fun a => a.id == aid)

def DB.findArtifact (db : DB) (rid : Nat) (path : String) : Option ModelArtifact :=
  db.artifacts.find? (fun a => a.model_repo_id == rid && a.file_path == path)

def DB.updArtifact (db : DB) (aid : Nat) (f : ModelArtifact → ModelArtifact) : DB :=
  { db with artifacts := db.artifacts.map (fun a => if a.id == aid then f a else a) }

def DB.updRepo (db : DB) (rid : Nat) (f : ModelRepo → ModelRepo) : DB :=
  { db with repos := db.repos.map (fun r => if r.id == rid then f r else r) }

def DB.addArtifact (db : DB) (mk : Nat → ModelArtifact) : DB :=
  { db with artifacts := db.artifacts ++ [mk db.next_id], next_id := db.next_id + 1 }

/-! ## Session: staged working copy plus committed (durable) copy.  The
jobTrace field is ghost state recording every job-status value the task
writes, in order, for the job named by the task's job_id. -/

structure Session where
  staged : DB
  committed : DB
  jobTrace : List JobStatus
deriving DecidableEq

def Session.start (db : DB) : Session := ⟨db, db, []⟩

def Session.commit (s : Session) : Session := ⟨s.staged, s.staged, s.jobTrace⟩

/-- The repeated pattern at every job-status write site of tasks.py:
if a job id was passed, fetch the Job; if it exists, set its status and
logs and commit the session (flushing everything staged). -/
def jobWrite (job_id : Option Nat) (st : JobStatus) (lg : String) (s : Session) : Session :=
  match job_id with
  | none => s
  | some jid =>
    match s.staged.getJob jid with
    | none => s
    | some _ =>
      Session.commit { s with staged := s.staged.setJob jid st lg, jobTrace := s.jobTrace ++ [st] }

/-! ## Sync orchestrator (sync_repo_metadata, tasks.py lines 24-167)

External effects are parameters: `listing` is the result of
list_repo_files, `download` maps a file path to the inline metadata
download's outcome (the local path hf_hub_download returned, or the raised
error), `now` stands for datetime.utcnow(). -/

structure SyncEnv where
  listing : Except String (List FileInfo)
  download : String → Except String String
  now : Nat

structure SyncResult where
  files_synced : Nat
  artifacts_created : Nat
  metadata_downloaded : Nat
deriving DecidableEq

/-- Loop-carried state of the per-file loop.  file_type_str mirrors the
Python local of the same name: it is assigned only on the new-artifact
branch, so it is none until the first new artifact of the run and
afterwards holds the classification of the most recently created
artifact, not necessarily of the current file. -/
structure SyncLoopState where
  sess : Session
  file_type_str : Option String
  artifacts_created : Nat
  metadata_downloaded : Nat

def unboundMsg : String :=
  "UnboundLocalError: local variable file_type_str referenced before assignment"

def syncStartMsg (repo_id : String) : String := "Starting metadata sync for " ++ repo_id

/-- Body of the per-file loop, tasks.py lines 66-131.  An error carries
the session as it stands at the raise, since the exception handler keeps
working with the same session. -/
def syncFile (env : SyncEnv) (repoDbId : Nat) (st : SyncLoopState) (fi : FileInfo) :
    Except (Session × String) SyncLoopState :=
  let existing := st.sess.staged.findArtifact repoDbId fi.path
  let step :=
    match existing with
    | some a =>
      -- lines 78-81: update size and content hash in place
      let sess := { st.sess with staged := (st.sess.staged.updArtifact a.id
        (fun x => { x with size_bytes := fi.size, content_hash := some fi.blob_id })) }
      (sess, a.id, st.file_type_str, st.artifacts_created)
    | none =>
      -- lines 82-102: classify, create a new pending artifact
      let t := classify_file_type fi.path
      let newId := st.sess.staged.next_id
      let sess := { st.sess with staged := st.sess.staged.addArtifact (fun i =>
        { id := i
          model_repo_id := repoDbId
          file_path := fi.path
          file_type := ArtifactType.ofString t
          size_bytes := fi.size
          content_hash := some fi.blob_id
          download_status := DownloadStatus.pending
          local_path := none
          last_verified_at := none }) }
      (sess, newId, some t, st.artifacts_created + 1)
  match step with
  | (sess, targetId, fts, created) =>
    -- lines 104-131: inline metadata download; evaluating file_type_str
    -- raises when no new-artifact branch has run yet in this call
    match fts with
    | none => Except.error (sess, unboundMsg)
    | some t =>
      if (t == "config" || t == "tokenizer") && fi.size < 10000000 then
        match env.download fi.path with
        | Except.ok p =>
          let sess := { sess with staged := (sess.staged.updArtifact targetId
            (fun x => { x with local_path := some p,
                               download_status := DownloadStatus.completed,
                               last_verified_at := some env.now })) }
          Except.ok ⟨sess, fts, created, st.metadata_downloaded + 1⟩
        | Except.error _ =>
          -- line 130-131: logged and swallowed, sync continues
          Except.ok ⟨sess, fts, created, st.metadata_downloaded⟩
      else
        Except.ok ⟨sess, fts, created, st.metadata_downloaded⟩

def syncLoop (env : SyncEnv) (repoDbId : Nat) :
    SyncLoopState → List FileInfo → Except (Session × String) SyncLoopState
  | st, [] => Except.ok st
  | st, fi :: rest =>
    match syncFile env repoDbId st fi with
    | Except.error e => Except.error e
    | Except.ok st' => syncLoop env repoDbId st' rest

/-- The exception handler, tasks.py lines 158-167: record the failure on
the Job (committing the session, and with it every change staged before
the exception) and re-raise. -/
def syncFail (job_id : Option Nat) (e : String) (s : Session) : Session :=
  jobWrite job_id JobStatus.failed ("Error: " ++ e) s

def syncSummary (files created meta : Nat) : String :=
  "Synced " ++ toString files ++ " files, created " ++ toString created ++
    " new artifacts, downloaded " ++ toString meta ++ " metadata files"

def sync_repo_metadata (env : SyncEnv) (repo_id : String) (job_id : Option Nat) (db : DB) :
    Except String SyncResult × Session :=
  let s := Session.start db
  -- lines 40-46: mark the job running
  let s := jobWrite job_id JobStatus.running (syncStartMsg repo_id) s
  match s.staged.findRepo repo_id with
  | none =>
    let e := "ModelRepo not found: " ++ repo_id
    (Except.error e, syncFail job_id e s)
  | some model_repo =>
    match env.listing with
    | Except.error e => (Except.error e, syncFail job_id e s)
    | Except.ok files =>
      match syncLoop env model_repo.id ⟨s, none, 0, 0⟩ files with
      | Except.error (sErr, e) => (Except.error e, syncFail job_id e sErr)
      | Except.ok st =>
        -- lines 133-137: mark the repo synced and commit everything
        let s2 := Session.commit { st.sess with staged := (st.sess.staged.updRepo model_repo.id
          (fun r => { r with status := RepoStatus.synced, updated_at := env.now })) }
        -- lines 139-149: mark the job completed
        let s3 := jobWrite job_id JobStatus.completed
          (syncSummary files.length st.artifacts_created st.metadata_downloaded) s2
        (Except.ok ⟨files.length, st.artifacts_created, st.metadata_downloaded⟩, s3)

/-! ## Filesystem: temp area and content-addressed blob store -/

def assocFind (m : List (String × List Nat)) (k : String) : Option (List Nat) :=
  (m.find? (fun p => p.1 == k)).map (fun p => p.2)

def assocSet (m : List (String × List Nat)) (k : String) (v : List Nat) : List (String × List Nat) :=
  m ++ [(k, v)]

def assocRemove (m : List (String × List Nat)) (k : String) : List (String × List Nat) :=
  m.filter (fun p => !(p.1 == k))

structure FS where
  temp : List (String × List Nat)
  blobs : List (String × List Nat)
deriving DecidableEq

/-! ## Download orchestrator (download_artifact, tasks.py lines 170-284)

`fetch` maps the artifact's file path to the bytes hf_hub_download wrote
into the temp area (or the raised error); `hexdigest` is the abstract
SHA-256 hex digest of an absorbed byte stream; the two WriteOk flags
inject faults into the two best-effort writes of the exception handler
(each models the inner try/except succeeding or raising). -/

structure DlEnv where
  hexdigest : List Nat → String
  fetch : String → Except String (List Nat)
  now : Nat
  artifactFailWriteOk : Bool
  jobFailWriteOk : Bool

structure DlState where
  sess : Session
  fs : FS

structure DlResult where
  artifact_id : Nat
  local_path : String
  hash : String
deriving DecidableEq

/-- Exception handler, tasks.py lines 263-284: best-effort artifact-Failed
write (an error there is swallowed), then best-effort job-Failed write (an
error there is swallowed too); the caller re-raises the original error. -/
def dlFail (env : DlEnv) (artifact_id : Nat) (job_id : Option Nat) (e : String)
    (st : DlState) : DlState :=
  let st :=
    if env.artifactFailWriteOk then
      match st.sess.staged.getArtifact artifact_id with
      | none => st
      | some _ =>
        { st with sess := Session.commit { st.sess with staged := (st.sess.staged.updArtifact
            artifact_id (fun a => { a with download_status := DownloadStatus.failed })) } }
    else st
  if env.jobFailWriteOk then
    { st with sess := jobWrite job_id JobStatus.failed ("Error: " ++ e) st.sess }
  else st

def dlStartMsg (artifact_id : Nat) : String :=
  "Starting download for artifact " ++ toString artifact_id

def tempPathOf (file_path : String) : String := "temp/" ++ file_path

def blobPathOf (digest : String) : String := "blobs/sha256/" ++ digest

def download_artifact (env : DlEnv) (artifact_id : Nat) (job_id : Option Nat)
    (db : DB) (fs : FS) : Except String DlResult × DlState :=
  let s := Session.start db
  -- lines 191-197: mark the job running
  let s := jobWrite job_id JobStatus.running (dlStartMsg artifact_id) s
  match s.staged.getArtifact artifact_id with
  | none =>
    let e := "Artifact not found: " ++ toString artifact_id
    (Except.error e, dlFail env artifact_id job_id e ⟨s, fs⟩)
  | some artifact =>
    match s.staged.getRepo artifact.model_repo_id with
    | none =>
      let e := "ModelRepo not found: " ++ toString artifact.model_repo_id
      (Except.error e, dlFail env artifact_id job_id e ⟨s, fs⟩)
    | some _model_repo =>
      -- lines 209-211: mark the artifact downloading and commit
      let s := Session.commit { s with staged := (s.staged.updArtifact artifact_id
        (fun a => { a with download_status := DownloadStatus.downloading })) }
      -- lines 216-222: fetch into the temp area
      match env.fetch artifact.file_path with
      | Except.error e => (Except.error e, dlFail env artifact_id job_id e ⟨s, fs⟩)
      | Except.ok bytes =>
        let tp := tempPathOf artifact.file_path
        let fs1 : FS := { fs with temp := assocSet fs.temp tp bytes }
        -- line 225: streamed hash of the fetched file
        let file_hash := compute_file_hash env.hexdigest bytes
        let final_path := blobPathOf file_hash
        -- lines 232-238: dedup commit into the blob store
        let fs2 : FS :=
          match assocFind fs1.blobs file_hash with
          | some _ => { fs1 with temp := assocRemove fs1.temp tp }
          | none => { temp := assocRemove fs1.temp tp,
                      blobs := assocSet fs1.blobs file_hash bytes }
        -- lines 240-246: update the artifact record and commit
        let s := Session.commit { s with staged := (s.staged.updArtifact artifact_id
          (fun a => { a with local_path := some final_path,
                             content_hash := some file_hash,
                             download_status := DownloadStatus.completed,
                             last_verified_at := some env.now })) }
        -- lines 248-254: mark the job completed
        let s := jobWrite job_id JobStatus.completed
          ("Downloaded artifact to " ++ final_path) s
        (Except.ok ⟨artifact_id, final_path, file_hash⟩, ⟨s, fs2⟩)

/-! ## Content-store commit race (tasks.py lines 232-238, spec section 4.2)

Two callers race to commit the same digest.  Each performs two filesystem
steps: read whether the blob path exists, then either unlink its own temp
file (dedup path) or rename it onto the blob path (POSIX rename replaces
an existing target atomically).  All interleavings of the two callers are
schedules; an operation on a missing source marks the run failed. -/

inductive RacePC where
  | toCheck
  | toAct (sawExists : Bool)
  | done
deriving DecidableEq

structure RaceState where
  pc1 : RacePC
  pc2 : RacePC
  temp1 : Bool
  temp2 : Bool
  blob : Bool
  failed : Bool
deriving DecidableEq

def raceAct (temp blob : Bool) (sawExists : Bool) : Bool × Bool × Bool :=
  if sawExists then
    -- unlink own temp file; fails if it is gone
    if temp then (false, blob, false) else (temp, blob, true)
  else
    -- rename own temp file onto the blob path; fails if the source is gone,
    -- atomically replaces any existing target otherwise
    if temp then (false, true, false) else (temp, blob, true)

def raceStep1 (s : RaceState) : RaceState :=
  match s.pc1 with
  | RacePC.toCheck => { s with pc1 := RacePC.toAct s.blob }
  | RacePC.toAct e =>
    match raceAct s.temp1 s.blob e with
    | (t, b, f) => { s with pc1 := RacePC.done, temp1 := t, blob := b, failed := s.failed || f }
  | RacePC.done => s

def raceStep2 (s : RaceState) : RaceState :=
  match s.pc2 with
  | RacePC.toCheck => { s with pc2 := RacePC.toAct s.blob }
  | RacePC.toAct e =>
    match raceAct s.temp2 s.blob e with
    | (t, b, f) => { s with pc2 := RacePC.done, temp2 := t, blob := b, failed := s.failed || f }
  | RacePC.done => s

def raceRun : List Bool → RaceState → RaceState
  | [], s => s
  | c :: cs, s => raceRun cs (if c then raceStep1 s else raceStep2 s)

def raceInit (blob0 : Bool) : RaceState :=
  ⟨RacePC.toCheck, RacePC.toCheck, true, true, blob0, false⟩

def raceBothDone (s : RaceState) : Bool :=
  match s.pc1, s.pc2 with
  | RacePC.done, RacePC.done => true
  | _, _ => false

/-- No step ever failed, and once both callers are finished exactly one
physical copy survives: the blob is present and both temp files are gone. -/
def raceGood (s : RaceState) : Bool :=
  !s.failed && (!(raceBothDone s) || (s.blob && !s.temp1 && !s.temp2))

def raceOkPC : RacePC → Bool → Bool → Bool
  | RacePC.toCheck, temp, _ => temp
  | RacePC.toAct e, temp, blob => temp && (!e || blob)
  | RacePC.done, temp, blob => !temp && blob

def raceInv (s : RaceState) : Bool :=
  !s.failed && raceOkPC s.pc1 s.temp1 s.blob && raceOkPC s.pc2 s.temp2 s.blob


/-! ## Derived definitions used by the lemmas below -/

def slSess : Except (Session × String) SyncLoopState → Session
  | Except.ok st => st.sess
  | Except.error p => p.1

/-- Every artifact row carries a non-null content hash. -/
def allHashed (l : List ModelArtifact) : Prop := ∀ a ∈ l, a.content_hash.isSome = true

def sessHashed (s : Session) : Prop :=
  allHashed s.staged.artifacts ∧ allHashed s.committed.artifacts

/-- The artifact record as download_artifact leaves it on success (tasks.py
lines 240-244). -/
def dlDone (A : ModelArtifact) (d : String) (now : Nat) : ModelArtifact :=
  { A with local_path := some (blobPathOf d), content_hash := some d, download_status := DownloadStatus.completed, last_verified_at := some now }

/-- The blob store after a dedup commit of digest d with content bytes
(tasks.py lines 232-238). -/
def dedupCommit (blobs : List (String × List Nat)) (d : String) (bytes : List Nat) :
    List (String × List Nat) :=
  match assocFind blobs d with
  | some _ => blobs
  | none => assocSet blobs d bytes

instance : Fintype RacePC :=
  ⟨⟨{RacePC.toCheck, RacePC.toAct true, RacePC.toAct false, RacePC.done}, by decide⟩,
   by intro x; cases x with
      | toCheck => decide
      | toAct e => cases e <;> decide
      | done => decide⟩

instance : Fintype RaceState :=
  Fintype.ofBijective
    (fun p : RacePC × RacePC × Bool × Bool × Bool × Bool =>
      RaceState.mk p.1 p.2.1 p.2.2.1 p.2.2.2.1 p.2.2.2.2.1 p.2.2.2.2.2)
    (by constructor
        · intro a b hab
          obtain ⟨a1, a2, a3, a4, a5, a6⟩ := a
          obtain ⟨b1, b2, b3, b4, b5, b6⟩ := b
          simp only [RaceState.mk.injEq] at hab
          simp_all
        · intro s
          obtain ⟨s1, s2, s3, s4, s5, s6⟩ := s
          exact ⟨⟨s1, s2, s3, s4, s5, s6⟩, rfl⟩)

/-- Projection of an Except result onto its error, for stating outcomes. -/
def exceptErr {e a : Type} : Except e a → Option e
  | Except.error x => some x
  | Except.ok _ => none

/-- Projection of an Except result onto its success value. -/
def exceptOkRes {e a : Type} : Except e a → Option a
  | Except.error _ => none
  | Except.ok v => some v

/-! ## Concrete scenarios used in counterexamples and witnesses -/

def repo1 : ModelRepo := ⟨1, "acme/widget", RepoStatus.registered, 0⟩

/-- Scenario C1: an empty catalog for repo1 and two pending jobs; the remote
listing holds a single ordinary file. -/
def dbC1 : DB :=
  ⟨[repo1], [], [⟨7, JobStatus.pending, none⟩, ⟨8, JobStatus.pending, none⟩], 100⟩

def envC1 : SyncEnv :=
  ⟨Except.ok [⟨"a.txt", 5, "blob1"⟩], fun _ => Except.error "no network", 1⟩

def runC1a : Except String SyncResult × Session :=
  sync_repo_metadata envC1 "acme/widget" (some 7) dbC1

def runC1b : Except String SyncResult × Session :=
  sync_repo_metadata envC1 "acme/widget" (some 8) runC1a.2.committed

/-- Scenario C2: an existing artifact whose remote size changed from 100 to
200 bytes; the sync crashes mid-loop on the existing-artifact path. -/
def dbC2x : DB :=
  ⟨[repo1], [⟨50, 1, "f1.txt", ArtifactType.other, 100, some "oldb", DownloadStatus.pending, none, none⟩], [⟨7, JobStatus.pending, none⟩], 100⟩

def envC2x : SyncEnv :=
  ⟨Except.ok [⟨"f1.txt", 200, "newb"⟩], fun _ => Except.error "no network", 4⟩

def runC2x : Except String SyncResult × Session :=
  sync_repo_metadata envC2x "acme/widget" (some 7) dbC2x

/-- Scenario C5: an artifact for model.bin already exists; the listing puts a
new small config file first, so the loop variable file_type_str still holds
"config" when model.bin is processed. -/
def dbC5x : DB :=
  ⟨[repo1], [⟨50, 1, "model.bin", ArtifactType.model, 5000, some "oldblob", DownloadStatus.pending, none, none⟩], [⟨7, JobStatus.pending, none⟩], 100⟩

def envC5x : SyncEnv :=
  ⟨Except.ok [⟨"my_config.json", 100, "b1"⟩, ⟨"model.bin", 5000, "b2"⟩], fun p => Except.ok ("metadata/acme_widget/" ++ p), 3⟩

def runC5x : Except String SyncResult × Session :=
  sync_repo_metadata envC5x "acme/widget" (some 7) dbC5x

/-- Scenario C6: the tracked job is already in the terminal Completed state
when the sync task is re-delivered; the remote listing fails. -/
def dbC6x : DB := ⟨[repo1], [], [⟨7, JobStatus.completed, some "old log"⟩], 100⟩

def envC6x : SyncEnv := ⟨Except.error "boom", fun _ => Except.error "x", 5⟩

def runC6x : Except String SyncResult × Session :=
  sync_repo_metadata envC6x "acme/widget" (some 7) dbC6x

/-- Scenario C9: a fresh repository; the listing reports one file with git
blob id "abc". -/
def dbC9x : DB := ⟨[repo1], [], [], 100⟩

def envC9x : SyncEnv :=
  ⟨Except.ok [⟨"weights.bin", 99, "abc"⟩], fun _ => Except.error "x", 6⟩

def runC9x : Except String SyncResult × Session :=
  sync_repo_metadata envC9x "acme/widget" none dbC9x

/-- Download scenarios: two distinct pending artifacts of repo1 whose remote
bytes are identical. -/
def art50 : ModelArtifact :=
  ⟨50, 1, "w1.bin", ArtifactType.model, 3, none, DownloadStatus.pending, none, none⟩

def art51 : ModelArtifact :=
  ⟨51, 1, "w2.bin", ArtifactType.model, 3, none, DownloadStatus.pending, none, none⟩

def dbDl : DB := ⟨[repo1], [art50, art51], [⟨7, JobStatus.pending, none⟩], 100⟩

def envDl : DlEnv := ⟨fun _ => "d0", fun _ => Except.ok [1, 2, 3], 9, true, true⟩

def envDlFail : DlEnv := ⟨fun _ => "d0", fun _ => Except.error "conn reset", 9, true, true⟩

def fsDl : FS := ⟨[], []⟩

/-- Two sequential downloads: the second starts from the database and
filesystem left by the first. -/
def runTwice (env : DlEnv) (a1 a2 : Nat) (j1 j2 : Option Nat) (db : DB) (fs : FS) :
    Except String DlResult × DlState :=
  download_artifact env a2 j2 (download_artifact env a1 j1 db fs).2.sess.committed
    (download_artifact env a1 j1 db fs).2.fs

/-! ## Helper lemmas -/

theorem exceptErr_eq {e a : Type} (x : Except e a) (v : e) (h : exceptErr x = some v) :
    x = Except.error v := by
  cases x with
  | error y =>
    simp only [exceptErr, Option.some.injEq] at h
    rw [h]
  | ok y => simp [exceptErr] at h

@[simp] theorem setJob_artifacts (db : DB) (jid : Nat) (st : JobStatus) (lg : String) :
    (db.setJob jid st lg).artifacts = db.artifacts := rfl

@[simp] theorem setJob_repos (db : DB) (jid : Nat) (st : JobStatus) (lg : String) :
    (db.setJob jid st lg).repos = db.repos := rfl

@[simp] theorem setJob_next_id (db : DB) (jid : Nat) (st : JobStatus) (lg : String) :
    (db.setJob jid st lg).next_id = db.next_id := rfl

@[simp] theorem updArtifact_repos (db : DB) (aid : Nat) (f : ModelArtifact → ModelArtifact) :
    (db.updArtifact aid f).repos = db.repos := rfl

@[simp] theorem updArtifact_jobs (db : DB) (aid : Nat) (f : ModelArtifact → ModelArtifact) :
    (db.updArtifact aid f).jobs = db.jobs := rfl

@[simp] theorem updArtifact_next_id (db : DB) (aid : Nat) (f : ModelArtifact → ModelArtifact) :
    (db.updArtifact aid f).next_id = db.next_id := rfl

@[simp] theorem updRepo_artifacts (db : DB) (rid : Nat) (f : ModelRepo → ModelRepo) :
    (db.updRepo rid f).artifacts = db.artifacts := rfl

@[simp] theorem updRepo_jobs (db : DB) (rid : Nat) (f : ModelRepo → ModelRepo) :
    (db.updRepo rid f).jobs = db.jobs := rfl

@[simp] theorem addArtifact_repos (db : DB) (mk : Nat → ModelArtifact) :
    (db.addArtifact mk).repos = db.repos := rfl

@[simp] theorem addArtifact_jobs (db : DB) (mk : Nat → ModelArtifact) :
    (db.addArtifact mk).jobs = db.jobs := rfl

@[simp] theorem commit_staged (s : Session) : (Session.commit s).staged = s.staged := rfl

@[simp] theorem commit_committed (s : Session) : (Session.commit s).committed = s.staged := rfl

@[simp] theorem commit_jobTrace (s : Session) : (Session.commit s).jobTrace = s.jobTrace := rfl

@[simp] theorem start_staged (db : DB) : (Session.start db).staged = db := rfl

@[simp] theorem start_committed (db : DB) : (Session.start db).committed = db := rfl

@[simp] theorem start_jobTrace (db : DB) : (Session.start db).jobTrace = [] := rfl

/-- find? for an id-keyed update: looking up the updated id sees the update. -/
theorem find?_upd {α : Type} (idOf : α → Nat) (f : α → α) (hf : ∀ a, idOf (f a) = idOf a)
    (i : Nat) (l : List α) :
    (l.map (fun a => if idOf a == i then f a else a)).find? (fun a => idOf a == i)
      = (l.find? (fun a => idOf a == i)).map f := by
  induction l with
  | nil => simp
  | cons a t ih =>
    cases h : (idOf a == i) with
    | true => simp [List.find?, h, hf a]
    | false => simpa [List.find?, h] using ih

/-- find? for an id-keyed update: looking up a different id is unaffected. -/
theorem find?_upd_ne {α : Type} (idOf : α → Nat) (f : α → α) (hf : ∀ a, idOf (f a) = idOf a)
    (i b : Nat) (hne : ¬ i = b) (l : List α) :
    (l.map (fun a => if idOf a == i then f a else a)).find? (fun a => idOf a == b)
      = l.find? (fun a => idOf a == b) := by
  induction l with
  | nil => rfl
  | cons a t ih =>
    simp only [List.map_cons]
    cases h : (idOf a == i) with
    | true =>
      have hb : (idOf a == b) = false := by
        cases hb : (idOf a == b) with
        | true =>
          have h1 : idOf a = i := by simpa using h
          have h2 : idOf a = b := by simpa using hb
          exact absurd (h1.symm.trans h2) hne
        | false => rfl
      have hfb : (idOf (f a) == b) = false := by rw [hf a]; exact hb
      rw [if_pos rfl]
      rw [List.find?_cons_of_neg _ (by simp [hfb]), List.find?_cons_of_neg _ (by simp [hb])]
      exact ih
    | false =>
      rw [if_neg (by simp)]
      cases hb : (idOf a == b) with
      | true =>
        rw [List.find?_cons_of_pos _ (by simp [hb]), List.find?_cons_of_pos _ (by simp [hb])]
      | false =>
        rw [List.find?_cons_of_neg _ (by simp [hb]), List.find?_cons_of_neg _ (by simp [hb])]
        exact ih

theorem getArtifact_setJob (db : DB) (jid : Nat) (st : JobStatus) (lg : String) (aid : Nat) :
    (db.setJob jid st lg).getArtifact aid = db.getArtifact aid := rfl

theorem getRepo_setJob (db : DB) (jid : Nat) (st : JobStatus) (lg : String) (rid : Nat) :
    (db.setJob jid st lg).getRepo rid = db.getRepo rid := rfl

theorem getJob_updArtifact (db : DB) (aid : Nat) (f : ModelArtifact → ModelArtifact) (jid : Nat) :
    (db.updArtifact aid f).getJob jid = db.getJob jid := rfl

theorem getJob_updRepo (db : DB) (rid : Nat) (f : ModelRepo → ModelRepo) (jid : Nat) :
    (db.updRepo rid f).getJob jid = db.getJob jid := rfl

theorem getJob_setJob_self (db : DB) (jid : Nat) (st : JobStatus) (lg : String) :
    (db.setJob jid st lg).getJob jid
      = (db.getJob jid).map (fun j => { j with status := st, logs := some lg }) :=
  find?_upd Job.id (fun j => { j with status := st, logs := some lg }) (fun _ => rfl) jid db.jobs

theorem getArtifact_updArtifact_self (db : DB) (aid : Nat) (f : ModelArtifact → ModelArtifact)
    (hf : ∀ a, (f a).id = a.id) :
    (db.updArtifact aid f).getArtifact aid = (db.getArtifact aid).map f :=
  find?_upd ModelArtifact.id f hf aid db.artifacts

theorem getArtifact_updArtifact_ne (db : DB) (aid : Nat) (f : ModelArtifact → ModelArtifact)
    (hf : ∀ a, (f a).id = a.id) (b : Nat) (hne : ¬ aid = b) :
    (db.updArtifact aid f).getArtifact b = db.getArtifact b :=
  find?_upd_ne ModelArtifact.id f hf aid b hne db.artifacts

/-! jobWrite projections -/

theorem jobWrite_staged_artifacts (jid : Option Nat) (st : JobStatus) (lg : String) (s : Session) :
    (jobWrite jid st lg s).staged.artifacts = s.staged.artifacts := by
  cases jid with
  | none => rfl
  | some j => cases h : s.staged.getJob j <;> simp [jobWrite, h]

theorem jobWrite_staged_repos (jid : Option Nat) (st : JobStatus) (lg : String) (s : Session) :
    (jobWrite jid st lg s).staged.repos = s.staged.repos := by
  cases jid with
  | none => rfl
  | some j => cases h : s.staged.getJob j <;> simp [jobWrite, h]

theorem jobWrite_staged_next_id (jid : Option Nat) (st : JobStatus) (lg : String) (s : Session) :
    (jobWrite jid st lg s).staged.next_id = s.staged.next_id := by
  cases jid with
  | none => rfl
  | some j => cases h : s.staged.getJob j <;> simp [jobWrite, h]

theorem jobWrite_staged_getArtifact (jid : Option Nat) (st : JobStatus) (lg : String)
    (s : Session) (aid : Nat) :
    (jobWrite jid st lg s).staged.getArtifact aid = s.staged.getArtifact aid := by
  cases jid with
  | none => rfl
  | some j => cases h : s.staged.getJob j <;> simp [jobWrite, h, getArtifact_setJob]

theorem jobWrite_staged_getRepo (jid : Option Nat) (st : JobStatus) (lg : String)
    (s : Session) (rid : Nat) :
    (jobWrite jid st lg s).staged.getRepo rid = s.staged.getRepo rid := by
  cases jid with
  | none => rfl
  | some j => cases h : s.staged.getJob j <;> simp [jobWrite, h, getRepo_setJob]

theorem jobWrite_committed_artifacts (jid : Option Nat) (st : JobStatus) (lg : String)
    (s : Session) (h : s.committed.artifacts = s.staged.artifacts) :
    (jobWrite jid st lg s).committed.artifacts = s.staged.artifacts := by
  cases jid with
  | none => exact h
  | some j => cases hj : s.staged.getJob j <;> simp [jobWrite, hj, h]

theorem jobWrite_committed_repos (jid : Option Nat) (st : JobStatus) (lg : String)
    (s : Session) (h : s.committed.repos = s.staged.repos) :
    (jobWrite jid st lg s).committed.repos = s.staged.repos := by
  cases jid with
  | none => exact h
  | some j => cases hj : s.staged.getJob j <;> simp [jobWrite, hj, h]

/-! Association-list lemmas for the filesystem -/

theorem assocFind_assocSet_self (m : List (String × List Nat)) (k : String) (v : List Nat)
    (h : assocFind m k = none) : assocFind (assocSet m k v) k = some v := by
  induction m with
  | nil => simp [assocFind, assocSet, List.find?]
  | cons p t ih =>
    cases hp : (p.1 == k) with
    | true => simp [assocFind, List.find?, hp] at h
    | false =>
      have h' : assocFind t k = none := by
        simpa [assocFind, List.find?, hp] using h
      simpa [assocFind, assocSet, List.find?, hp] using ih h'

theorem assocFind_none_countP (m : List (String × List Nat)) (k : String)
    (h : assocFind m k = none) : m.countP (fun p => p.1 == k) = 0 := by
  induction m with
  | nil => rfl
  | cons p t ih =>
    cases hp : (p.1 == k) with
    | true => simp [assocFind, List.find?, hp] at h
    | false =>
      have h' : assocFind t k = none := by
        simpa [assocFind, List.find?, hp] using h
      simpa [List.countP_cons, hp] using ih h'

theorem countP_assocSet_self (m : List (String × List Nat)) (k : String) (v : List Nat) :
    (assocSet m k v).countP (fun p => p.1 == k) = m.countP (fun p => p.1 == k) + 1 := by
  simp [assocSet, List.countP_append, List.countP_cons]

theorem assocFind_assocRemove_self (m : List (String × List Nat)) (k : String) :
    assocFind (assocRemove m k) k = none := by
  induction m with
  | nil => rfl
  | cons p t ih =>
    cases hp : (p.1 == k) with
    | true => simp only [assocRemove, List.filter, hp] at ih ⊢; exact ih
    | false => simp only [assocFind, assocRemove, List.filter, List.find?, hp] at ih ⊢; exact ih

/-! Chunked-hashing lemmas -/

theorem chunks4096Fuel_spec (fuel : Nat) : ∀ l : List Nat, ∀ c ∈ chunks4096Fuel fuel l,
    c.length ≤ 4096 ∧ c ≠ [] := by
  induction fuel with
  | zero =>
    intro l c hc
    cases l <;> simp [chunks4096Fuel] at hc
  | succ n ih =>
    intro l c hc
    cases l with
    | nil => simp [chunks4096Fuel] at hc
    | cons x xs =>
      simp only [chunks4096Fuel, List.mem_cons] at hc
      cases hc with
      | inl h =>
        subst h
        constructor
        · simp
        · simp
      | inr h => exact ih _ c h

theorem chunks4096Fuel_foldl (fuel : Nat) : ∀ l acc : List Nat, l.length ≤ fuel →
    (chunks4096Fuel fuel l).foldl (fun a c => a ++ c) acc = acc ++ l := by
  induction fuel with
  | zero =>
    intro l acc hl
    cases l with
    | nil => simp [chunks4096Fuel]
    | cons x xs => simp at hl
  | succ n ih =>
    intro l acc hl
    cases l with
    | nil => simp [chunks4096Fuel]
    | cons x xs =>
      have hd : ((x :: xs).drop 4096).length ≤ n := by
        simp only [List.length_drop, List.length_cons]
        simp only [List.length_cons] at hl
        omega
      simp only [chunks4096Fuel, List.foldl_cons]
      rw [ih ((x :: xs).drop 4096) (acc ++ (x :: xs).take 4096) hd]
      rw [List.append_assoc, List.take_append_drop]

/-- The byte stream absorbed chunk by chunk is exactly the file's bytes:
the streamed digest equals the digest of the whole file. -/
theorem sha256_absorbed_eq (bytes : List Nat) : sha256_absorbed bytes = bytes := by
  have := chunks4096Fuel_foldl bytes.length bytes [] (Nat.le_refl _)
  simpa [sha256_absorbed, chunks4096] using this

theorem compute_file_hash_eq (hexdigest : List Nat → String) (bytes : List Nat) :
    compute_file_hash hexdigest bytes = hexdigest bytes := by
  rw [compute_file_hash, sha256_absorbed_eq]

/-! Further jobWrite observations -/

theorem jobWrite_none (st : JobStatus) (lg : String) (s : Session) :
    jobWrite none st lg s = s := rfl

theorem jobWrite_some_missing (j : Nat) (st : JobStatus) (lg : String) (s : Session)
    (h : s.staged.getJob j = none) : jobWrite (some j) st lg s = s := by
  simp [jobWrite, h]

theorem jobWrite_staged_getJob_self (j : Nat) (st : JobStatus) (lg : String) (s : Session) :
    (jobWrite (some j) st lg s).staged.getJob j
      = (s.staged.getJob j).map (fun x => { x with status := st, logs := some lg }) := by
  cases hj : s.staged.getJob j with
  | none => simp [jobWrite, hj]
  | some j1 => simp [jobWrite, hj, getJob_setJob_self]

theorem jobWrite_committed_getJob_some (j : Nat) (st : JobStatus) (lg : String) (s : Session)
    (j1 : Job) (h : s.staged.getJob j = some j1) :
    (jobWrite (some j) st lg s).committed.getJob j
      = some { j1 with status := st, logs := some lg } := by
  simp only [jobWrite, h, commit_committed]
  rw [getJob_setJob_self, h]
  rfl

theorem jobWrite_jobTrace_some (j : Nat) (st : JobStatus) (lg : String) (s : Session)
    (j1 : Job) (h : s.staged.getJob j = some j1) :
    (jobWrite (some j) st lg s).jobTrace = s.jobTrace ++ [st] := by
  simp [jobWrite, h]

/-! Sync-loop preservation lemmas -/


theorem syncFile_pres (env : SyncEnv) (rid : Nat) (st : SyncLoopState) (fi : FileInfo) :
    (slSess (syncFile env rid st fi)).staged.repos = st.sess.staged.repos ∧
    (slSess (syncFile env rid st fi)).staged.jobs = st.sess.staged.jobs ∧
    (slSess (syncFile env rid st fi)).committed = st.sess.committed ∧
    (slSess (syncFile env rid st fi)).jobTrace = st.sess.jobTrace := by
  unfold syncFile
  cases st.sess.staged.findArtifact rid fi.path with
  | some a =>
    cases st.file_type_str with
    | none => simp [slSess, DB.updArtifact]
    | some t =>
      dsimp only []
      split
      · cases env.download fi.path with
        | ok p => simp [slSess, DB.updArtifact]
        | error e => simp [slSess, DB.updArtifact]
      · simp [slSess, DB.updArtifact]
  | none =>
    dsimp only []
    split
    · cases env.download fi.path with
      | ok p => simp [slSess, DB.updArtifact, DB.addArtifact]
      | error e => simp [slSess, DB.updArtifact, DB.addArtifact]
    · simp [slSess, DB.updArtifact, DB.addArtifact]

theorem syncLoop_pres (env : SyncEnv) (rid : Nat) (files : List FileInfo) (st : SyncLoopState) :
    (slSess (syncLoop env rid st files)).staged.repos = st.sess.staged.repos ∧
    (slSess (syncLoop env rid st files)).staged.jobs = st.sess.staged.jobs ∧
    (slSess (syncLoop env rid st files)).committed = st.sess.committed ∧
    (slSess (syncLoop env rid st files)).jobTrace = st.sess.jobTrace := by
  induction files generalizing st with
  | nil => exact ⟨rfl, rfl, rfl, rfl⟩
  | cons fi rest ih =>
    have h1 := syncFile_pres env rid st fi
    simp only [syncLoop]
    cases h : syncFile env rid st fi with
    | error p =>
      rw [h] at h1
      simpa [slSess] using h1
    | ok st' =>
      rw [h] at h1
      simp only [slSess] at h1
      have h2 := ih st'
      exact ⟨h2.1.trans h1.1, h2.2.1.trans h1.2.1, h2.2.2.1.trans h1.2.2.1,
        h2.2.2.2.trans h1.2.2.2⟩

/-! Content-hash invariant (claim C9) -/


theorem allHashed_updArtifact (db : DB) (aid : Nat) (f : ModelArtifact → ModelArtifact)
    (hf : ∀ a, a.content_hash.isSome = true → (f a).content_hash.isSome = true)
    (h : allHashed db.artifacts) : allHashed (db.updArtifact aid f).artifacts := by
  intro a ha
  simp only [DB.updArtifact, List.mem_map] at ha
  obtain ⟨b, hb, hba⟩ := ha
  by_cases hid : (b.id == aid) = true
  · rw [if_pos hid] at hba
    exact hba ▸ hf b (h b hb)
  · rw [if_neg hid] at hba
    exact hba ▸ h b hb

theorem allHashed_addArtifact (db : DB) (mk : Nat → ModelArtifact)
    (hmk : ∀ i, ((mk i).content_hash).isSome = true)
    (h : allHashed db.artifacts) : allHashed (db.addArtifact mk).artifacts := by
  intro a ha
  simp only [DB.addArtifact, List.mem_append, List.mem_singleton] at ha
  cases ha with
  | inl hl => exact h a hl
  | inr hr => exact hr ▸ hmk db.next_id

theorem sessHashed_jobWrite (jid : Option Nat) (st : JobStatus) (lg : String) (s : Session)
    (h : sessHashed s) : sessHashed (jobWrite jid st lg s) := by
  cases jid with
  | none => exact h
  | some j =>
    cases hj : s.staged.getJob j with
    | none => simpa [jobWrite, hj] using h
    | some j0 =>
      refine ⟨?_, ?_⟩ <;> simpa [jobWrite, hj, Session.commit, DB.setJob] using h.1

theorem sessHashed_syncFile (env : SyncEnv) (rid : Nat) (st : SyncLoopState) (fi : FileInfo)
    (h : sessHashed st.sess) : sessHashed (slSess (syncFile env rid st fi)) := by
  unfold syncFile
  cases st.sess.staged.findArtifact rid fi.path with
  | some a =>
    cases st.file_type_str with
    | none =>
      refine ⟨?_, h.2⟩
      exact allHashed_updArtifact _ _ _ (fun a _ => by simp) h.1
    | some t =>
      dsimp only []
      split
      · cases env.download fi.path with
        | ok p =>
          refine ⟨?_, h.2⟩
          exact allHashed_updArtifact _ _ _ (fun b hb => by simpa using hb)
            (allHashed_updArtifact _ _ _ (fun b hb => by simp) h.1)
        | error e =>
          refine ⟨?_, h.2⟩
          exact allHashed_updArtifact _ _ _ (fun b hb => by simp) h.1
      · refine ⟨?_, h.2⟩
        exact allHashed_updArtifact _ _ _ (fun b hb => by simp) h.1
  | none =>
    dsimp only []
    split
    · cases env.download fi.path with
      | ok p =>
        refine ⟨?_, h.2⟩
        exact allHashed_updArtifact _ _ _ (fun b hb => by simpa using hb)
          (allHashed_addArtifact _ _ (fun i => by simp) h.1)
      | error e =>
        refine ⟨?_, h.2⟩
        exact allHashed_addArtifact _ _ (fun i => by simp) h.1
    · refine ⟨?_, h.2⟩
      exact allHashed_addArtifact _ _ (fun i => by simp) h.1

theorem sessHashed_syncLoop (env : SyncEnv) (rid : Nat) (files : List FileInfo)
    (st : SyncLoopState) (h : sessHashed st.sess) :
    sessHashed (slSess (syncLoop env rid st files)) := by
  induction files generalizing st with
  | nil => exact h
  | cons fi rest ih =>
    have h1 := sessHashed_syncFile env rid st fi h
    simp only [syncLoop]
    cases hc : syncFile env rid st fi with
    | error p =>
      rw [hc] at h1
      exact h1
    | ok st' =>
      rw [hc] at h1
      exact ih st' h1


theorem getJob_congr (db1 db2 : DB) (h : db1.jobs = db2.jobs) (j : Nat) :
    db1.getJob j = db2.getJob j := by
  unfold DB.getJob
  rw [h]

theorem sync_form (env : SyncEnv) (rid : String) (jid : Option Nat) (db : DB) :
    (∃ e s, sync_repo_metadata env rid jid db = (Except.error e, syncFail jid e s)
      ∧ s.staged.repos = db.repos
      ∧ s.staged.jobs
          = (jobWrite jid JobStatus.running (syncStartMsg rid) (Session.start db)).staged.jobs
      ∧ s.committed
          = (jobWrite jid JobStatus.running (syncStartMsg rid) (Session.start db)).committed
      ∧ s.jobTrace
          = (jobWrite jid JobStatus.running (syncStartMsg rid) (Session.start db)).jobTrace) ∨
    (∃ res s, sync_repo_metadata env rid jid db
        = (Except.ok res, jobWrite jid JobStatus.completed
            (syncSummary res.files_synced res.artifacts_created res.metadata_downloaded) s)
      ∧ s.staged.jobs
          = (jobWrite jid JobStatus.running (syncStartMsg rid) (Session.start db)).staged.jobs
      ∧ s.jobTrace
          = (jobWrite jid JobStatus.running (syncStartMsg rid) (Session.start db)).jobTrace) := by
  have f1 : (jobWrite jid JobStatus.running (syncStartMsg rid)
      (Session.start db)).staged.repos = db.repos := jobWrite_staged_repos _ _ _ _
  unfold sync_repo_metadata
  dsimp only
  cases hr : (jobWrite jid JobStatus.running (syncStartMsg rid)
      (Session.start db)).staged.findRepo rid with
  | none =>
    dsimp only
    exact Or.inl ⟨_, _, rfl, f1, rfl, rfl, rfl⟩
  | some repo =>
    dsimp only
    cases hL : env.listing with
    | error eL =>
      dsimp only
      exact Or.inl ⟨_, _, rfl, f1, rfl, rfl, rfl⟩
    | ok files =>
      dsimp only
      cases hl : syncLoop env repo.id ⟨jobWrite jid JobStatus.running
          (syncStartMsg rid) (Session.start db), none, 0, 0⟩ files with
      | error p =>
        obtain ⟨sErr, eE⟩ := p
        dsimp only
        have hpres := syncLoop_pres env repo.id files ⟨jobWrite jid JobStatus.running
          (syncStartMsg rid) (Session.start db), none, 0, 0⟩
        rw [hl] at hpres
        simp only [slSess] at hpres
        obtain ⟨hpr, hpj, hpc, hpt⟩ := hpres
        exact Or.inl ⟨_, _, rfl, hpr.trans f1, hpj, hpc, hpt⟩
      | ok stt =>
        dsimp only
        have hpres := syncLoop_pres env repo.id files ⟨jobWrite jid JobStatus.running
          (syncStartMsg rid) (Session.start db), none, 0, 0⟩
        rw [hl] at hpres
        simp only [slSess] at hpres
        obtain ⟨hpr, hpj, hpc, hpt⟩ := hpres
        refine Or.inr ⟨⟨files.length, stt.artifacts_created, stt.metadata_downloaded⟩, _, rfl,
          ?_, ?_⟩
        · simpa [DB.updRepo] using hpj
        · simpa using hpt

/-! Download success-path observations -/

theorem getArtifact_congr {db1 db2 : DB} (h : db1.artifacts = db2.artifacts) (aid : Nat) :
    db1.getArtifact aid = db2.getArtifact aid := by
  unfold DB.getArtifact
  rw [h]

theorem getRepos_congr {db1 db2 : DB} (h : db1.repos = db2.repos) (rid : Nat) :
    db1.getRepo rid = db2.getRepo rid := by
  unfold DB.getRepo
  rw [h]

theorem assocRemove_assocSet (m : List (String × List Nat)) (k : String) (v : List Nat) :
    assocRemove (assocSet m k v) k = assocRemove m k := by
  simp [assocRemove, assocSet, List.filter_append]


theorem dl_success_obs (env : DlEnv) (aid : Nat) (jid : Option Nat) (db : DB) (fs : FS)
    (A : ModelArtifact) (R : ModelRepo) (bytes : List Nat)
    (hA : db.getArtifact aid = some A)
    (hR : db.getRepo A.model_repo_id = some R)
    (hF : env.fetch A.file_path = Except.ok bytes) :
    (download_artifact env aid jid db fs).1
      = Except.ok ⟨aid, blobPathOf (compute_file_hash env.hexdigest bytes),
          compute_file_hash env.hexdigest bytes⟩ ∧
    (download_artifact env aid jid db fs).2.sess.committed.getArtifact aid
      = some (dlDone A (compute_file_hash env.hexdigest bytes) env.now) ∧
    (∀ b, ¬ aid = b →
      (download_artifact env aid jid db fs).2.sess.committed.getArtifact b
        = db.getArtifact b) ∧
    (download_artifact env aid jid db fs).2.sess.committed.repos = db.repos ∧
    (download_artifact env aid jid db fs).2.fs.temp
      = assocRemove fs.temp (tempPathOf A.file_path) ∧
    (download_artifact env aid jid db fs).2.fs.blobs
      = dedupCommit fs.blobs (compute_file_hash env.hexdigest bytes) bytes := by
  have h1 : (jobWrite jid JobStatus.running (dlStartMsg aid)
      (Session.start db)).staged.getArtifact aid = some A :=
    (jobWrite_staged_getArtifact _ _ _ _ _).trans hA
  have h2 : (jobWrite jid JobStatus.running (dlStartMsg aid)
      (Session.start db)).staged.getRepo A.model_repo_id = some R :=
    (jobWrite_staged_getRepo _ _ _ _ _).trans hR
  unfold download_artifact
  dsimp only
  rw [h1]
  dsimp only
  rw [h2]
  dsimp only
  rw [hF]
  dsimp only
  refine ⟨rfl, ?_, ?_, ?_, ?_, ?_⟩
  · rw [getArtifact_congr (jobWrite_committed_artifacts _ _ _ _ rfl) aid]
    simp only [commit_staged]
    rw [getArtifact_updArtifact_self _ _ _ ?hfa]
    case hfa => intro a; rfl
    rw [getArtifact_updArtifact_self _ _ _ ?hfb]
    case hfb => intro a; rfl
    rw [h1]
    rfl
  · intro b hne
    rw [getArtifact_congr (jobWrite_committed_artifacts _ _ _ _ rfl) b]
    simp only [commit_staged]
    rw [getArtifact_updArtifact_ne _ _ _ ?hfc _ hne]
    case hfc => intro a; rfl
    rw [getArtifact_updArtifact_ne _ _ _ ?hfd _ hne]
    case hfd => intro a; rfl
    exact (jobWrite_staged_getArtifact _ _ _ _ _)
  · rw [jobWrite_committed_repos _ _ _ _ rfl]
    simp only [commit_staged, updArtifact_repos]
    exact jobWrite_staged_repos _ _ _ _
  · cases hb : assocFind fs.blobs (compute_file_hash env.hexdigest bytes) with
    | some v =>
      dsimp only
      exact assocRemove_assocSet fs.temp (tempPathOf A.file_path) bytes
    | none =>
      dsimp only
      exact assocRemove_assocSet fs.temp (tempPathOf A.file_path) bytes
  · cases hb : assocFind fs.blobs (compute_file_hash env.hexdigest bytes) with
    | some v =>
      dsimp only
      unfold dedupCommit
      rw [hb]
    | none =>
      dsimp only
      unfold dedupCommit
      rw [hb]

/-! Download failure-path observations -/

theorem dl_failure_obs (env : DlEnv) (aid : Nat) (j : Nat) (db : DB) (fs : FS)
    (A : ModelArtifact) (R : ModelRepo) (j0 : Job) (e : String)
    (hA : db.getArtifact aid = some A)
    (hR : db.getRepo A.model_repo_id = some R)
    (hF : env.fetch A.file_path = Except.error e)
    (hj : db.getJob j = some j0) :
    (download_artifact env aid (some j) db fs).1 = Except.error e ∧
    (env.artifactFailWriteOk = true →
      ((download_artifact env aid (some j) db fs).2.sess.committed.getArtifact aid).map
        ModelArtifact.download_status = some DownloadStatus.failed) ∧
    (env.jobFailWriteOk = true →
      ((download_artifact env aid (some j) db fs).2.sess.committed.getJob j).map
        Job.status = some JobStatus.failed ∧
      ((download_artifact env aid (some j) db fs).2.sess.committed.getJob j).map
        Job.logs = some (some ("Error: " ++ e))) := by
  have h1 : (jobWrite (some j) JobStatus.running (dlStartMsg aid)
      (Session.start db)).staged.getArtifact aid = some A :=
    (jobWrite_staged_getArtifact _ _ _ _ _).trans hA
  have h2 : (jobWrite (some j) JobStatus.running (dlStartMsg aid)
      (Session.start db)).staged.getRepo A.model_repo_id = some R :=
    (jobWrite_staged_getRepo _ _ _ _ _).trans hR
  have hsj : (jobWrite (some j) JobStatus.running (dlStartMsg aid)
      (Session.start db)).staged.getJob j
      = some { j0 with status := JobStatus.running, logs := some (dlStartMsg aid) } := by
    rw [jobWrite_staged_getJob_self]
    simp [Session.start, hj]
  have hga : ((jobWrite (some j) JobStatus.running (dlStartMsg aid)
      (Session.start db)).staged.updArtifact aid (fun a =>
        { a with download_status := DownloadStatus.downloading })).getArtifact aid
      = some { A with download_status := DownloadStatus.downloading } := by
    rw [getArtifact_updArtifact_self _ _ _ ?hfa]
    case hfa => intro a; rfl
    rw [h1]
    rfl
  unfold download_artifact
  dsimp only
  rw [h1]
  dsimp only
  rw [h2]
  dsimp only
  rw [hF]
  dsimp only
  unfold dlFail
  cases hW1 : env.artifactFailWriteOk with
  | true =>
    rw [if_pos rfl]
    dsimp only
    simp only [commit_staged]
    rw [hga]
    dsimp only
    cases hW2 : env.jobFailWriteOk with
    | true =>
      rw [if_pos rfl]
      dsimp only
      refine ⟨by trivial, ?_, ?_⟩
      · intro _
        rw [getArtifact_congr (jobWrite_committed_artifacts _ _ _ _ rfl) aid]
        simp only [commit_staged]
        rw [getArtifact_updArtifact_self _ _ _ ?hfb]
        case hfb => intro a; rfl
        rw [getArtifact_updArtifact_self _ _ _ ?hfc]
        case hfc => intro a; rfl
        rw [h1]
        rfl
      · intro _
        have hsj2 : (Session.commit { (Session.commit { jobWrite (some j) JobStatus.running
            (dlStartMsg aid) (Session.start db) with staged := ((jobWrite (some j)
            JobStatus.running (dlStartMsg aid) (Session.start db)).staged.updArtifact aid
            (fun a => { a with download_status := DownloadStatus.downloading })) }) with
            staged := (((jobWrite (some j) JobStatus.running (dlStartMsg aid)
            (Session.start db)).staged.updArtifact aid (fun a =>
            { a with download_status := DownloadStatus.downloading })).updArtifact aid
            (fun a => { a with download_status := DownloadStatus.failed })) }).staged.getJob j
            = some { j0 with status := JobStatus.running, logs := some (dlStartMsg aid) } := by
          simp only [commit_staged]
          rw [getJob_updArtifact, getJob_updArtifact]
          exact hsj
        rw [jobWrite_committed_getJob_some _ _ _ _ _ hsj2]
        exact ⟨rfl, rfl⟩
    | false =>
      rw [if_neg (show ¬ false = true by decide)]
      refine ⟨by trivial, ?_, ?_⟩
      · intro _
        simp only [commit_committed, commit_staged]
        rw [getArtifact_updArtifact_self _ _ _ ?hfd]
        case hfd => intro a; rfl
        rw [getArtifact_updArtifact_self _ _ _ ?hfe]
        case hfe => intro a; rfl
        rw [h1]
        rfl
      · intro hcon
        exact absurd hcon (by simp)
  | false =>
    rw [if_neg (show ¬ false = true by decide)]
    dsimp only
    cases hW2 : env.jobFailWriteOk with
    | true =>
      rw [if_pos rfl]
      dsimp only
      refine ⟨by trivial, ?_, ?_⟩
      · intro hcon
        exact absurd hcon (by simp)
      · intro _
        have hsj2 : (Session.commit { jobWrite (some j) JobStatus.running (dlStartMsg aid)
            (Session.start db) with staged := ((jobWrite (some j) JobStatus.running
            (dlStartMsg aid) (Session.start db)).staged.updArtifact aid (fun a =>
            { a with download_status := DownloadStatus.downloading })) }).staged.getJob j
            = some { j0 with status := JobStatus.running, logs := some (dlStartMsg aid) } := by
          simp only [commit_staged]
          rw [getJob_updArtifact]
          exact hsj
        rw [jobWrite_committed_getJob_some _ _ _ _ _ hsj2]
        exact ⟨rfl, rfl⟩
    | false =>
      rw [if_neg (show ¬ false = true by decide)]
      refine ⟨by trivial, ?_, ?_⟩
      · intro hcon
        exact absurd hcon (by simp)
      · intro hcon
        exact absurd hcon (by simp)

/-! Download job-trace observations -/

theorem dlFail_trace (env : DlEnv) (aid j : Nat) (e : String) (st : DlState) (x : Job)
    (hW : env.jobFailWriteOk = true)
    (hg : st.sess.staged.getJob j = some x) :
    (dlFail env aid (some j) e st).sess.jobTrace
      = st.sess.jobTrace ++ [JobStatus.failed] := by
  unfold dlFail
  cases hw1 : env.artifactFailWriteOk with
  | true =>
    rw [if_pos rfl]
    dsimp only
    cases hga : st.sess.staged.getArtifact aid with
    | none =>
      dsimp only
      rw [hW, if_pos rfl]
      dsimp only
      rw [jobWrite_jobTrace_some _ _ _ _ x hg]
    | some a =>
      dsimp only
      rw [hW, if_pos rfl]
      dsimp only
      have hg2 : (Session.commit { st.sess with staged := (st.sess.staged.updArtifact aid
          (fun b => { b with download_status := DownloadStatus.failed })) }).staged.getJob j
          = some x := by
        simp only [commit_staged]
        rw [getJob_updArtifact]
        exact hg
      rw [jobWrite_jobTrace_some _ _ _ _ x hg2]
      simp only [commit_jobTrace]
  | false =>
    rw [if_neg (show ¬ false = true by decide)]
    rw [hW, if_pos rfl]
    dsimp only
    rw [jobWrite_jobTrace_some _ _ _ _ x hg]

theorem dl_trace (env : DlEnv) (aid j : Nat) (db : DB) (fs : FS) (j0 : Job)
    (hj : db.getJob j = some j0) (hW : env.jobFailWriteOk = true) :
    (download_artifact env aid (some j) db fs).2.sess.jobTrace
      = [JobStatus.running, JobStatus.completed]
    ∨ (download_artifact env aid (some j) db fs).2.sess.jobTrace
      = [JobStatus.running, JobStatus.failed] := by
  have hS1t : (jobWrite (some j) JobStatus.running (dlStartMsg aid)
      (Session.start db)).jobTrace = [JobStatus.running] :=
    jobWrite_jobTrace_some _ _ _ _ j0 hj
  have hS1j : (jobWrite (some j) JobStatus.running (dlStartMsg aid)
      (Session.start db)).staged.getJob j
      = some { j0 with status := JobStatus.running, logs := some (dlStartMsg aid) } := by
    rw [jobWrite_staged_getJob_self]
    simp [Session.start, hj]
  unfold download_artifact
  dsimp only
  cases hA : (jobWrite (some j) JobStatus.running (dlStartMsg aid)
      (Session.start db)).staged.getArtifact aid with
  | none =>
    dsimp only
    refine Or.inr ?_
    rw [dlFail_trace _ _ _ _ _ _ hW hS1j, hS1t]
    rfl
  | some artifact =>
    dsimp only
    cases hR : (jobWrite (some j) JobStatus.running (dlStartMsg aid)
        (Session.start db)).staged.getRepo artifact.model_repo_id with
    | none =>
      dsimp only
      refine Or.inr ?_
      rw [dlFail_trace _ _ _ _ _ _ hW hS1j, hS1t]
      rfl
    | some mrepo =>
      dsimp only
      cases hF : env.fetch artifact.file_path with
      | error e =>
        dsimp only
        refine Or.inr ?_
        rw [dlFail_trace _ _ _ _ _ _ hW ?hg2]
        case hg2 =>
          simp only [commit_staged]
          rw [getJob_updArtifact]
          exact hS1j
        simp only [commit_jobTrace]
        rw [hS1t]
        rfl
      | ok bytes =>
        dsimp only
        refine Or.inl ?_
        rw [jobWrite_jobTrace_some _ _ _ _ _ ?hg3]
        case hg3 =>
          simp only [commit_staged]
          rw [getJob_updArtifact, getJob_updArtifact]
          exact hS1j
        simp only [commit_jobTrace]
        rw [hS1t]
        rfl

theorem sync_trace (env : SyncEnv) (rid : String) (db : DB) (j : Nat) (j0 : Job)
    (hj : db.getJob j = some j0) :
    (sync_repo_metadata env rid (some j) db).2.jobTrace
      = [JobStatus.running, JobStatus.completed]
    ∨ (sync_repo_metadata env rid (some j) db).2.jobTrace
      = [JobStatus.running, JobStatus.failed] := by
  have hS1t : (jobWrite (some j) JobStatus.running (syncStartMsg rid)
      (Session.start db)).jobTrace = [JobStatus.running] :=
    jobWrite_jobTrace_some _ _ _ _ j0 hj
  have hS1j : (jobWrite (some j) JobStatus.running (syncStartMsg rid)
      (Session.start db)).staged.getJob j
      = some { j0 with status := JobStatus.running, logs := some (syncStartMsg rid) } := by
    rw [jobWrite_staged_getJob_self]
    simp [Session.start, hj]
  cases sync_form env rid (some j) db with
  | inl h =>
    obtain ⟨e, s, heq, hrep, hjobs, hcomm, htrace⟩ := h
    rw [heq]
    dsimp only
    refine Or.inr ?_
    unfold syncFail
    rw [jobWrite_jobTrace_some _ _ _ _ _ ((getJob_congr _ _ hjobs j).trans hS1j)]
    rw [htrace, hS1t]
    rfl
  | inr h =>
    obtain ⟨res, s, heq, hjobs, htrace⟩ := h
    rw [heq]
    dsimp only
    refine Or.inl ?_
    rw [jobWrite_jobTrace_some _ _ _ _ _ ((getJob_congr _ _ hjobs j).trans hS1j)]
    rw [htrace, hS1t]
    rfl

/-! Race-model lemmas -/


set_option maxRecDepth 4096

theorem raceInv_step1 (s : RaceState) (h : raceInv s = true) : raceInv (raceStep1 s) = true := by
  revert h
  revert s
  decide

theorem raceInv_step2 (s : RaceState) (h : raceInv s = true) : raceInv (raceStep2 s) = true := by
  revert h
  revert s
  decide

theorem raceInv_good (s : RaceState) (h : raceInv s = true) : raceGood s = true := by
  revert h
  revert s
  decide

theorem raceInv_run (sched : List Bool) (s : RaceState) (h : raceInv s = true) :
    raceInv (raceRun sched s) = true := by
  induction sched generalizing s with
  | nil => exact h
  | cons c cs ih =>
    cases c with
    | true => exact ih _ (raceInv_step1 s h)
    | false => exact ih _ (raceInv_step2 s h)

/-! ## Claim theorems -/

/-- Claim C8, counterexample: the claim says classify("tokenizer_config.json")
is Tokenizer because the tokenizer substring is checked before the config
rule; in the source the config rule (substring "config" plus ".json" ending,
hf_client.py line 183) is checked before the tokenizer rule (line 187), so
the result is "config", not "tokenizer". -/
theorem c8_counterexample :
    classify_file_type "tokenizer_config.json" = "config" ∧
    ¬ classify_file_type "tokenizer_config.json" = "tokenizer" := by
  decide

/-- Claim C8 (amended): classify maps "model.safetensors" to Model and
"readme.md" to Other as claimed, but "tokenizer_config.json" to Config,
because the config rule is checked before the tokenizer rule. -/
theorem c8_classify_results :
    ArtifactType.ofString (classify_file_type "model.safetensors") = ArtifactType.model ∧
    ArtifactType.ofString (classify_file_type "tokenizer_config.json") = ArtifactType.config ∧
    ArtifactType.ofString (classify_file_type "readme.md") = ArtifactType.other := by
  decide

/-- Claim C10: two callers racing to commit the same digest into the content
store are safe without locking: over every interleaving of the two
check-then-act commit sequences (exists, then unlink-own-temp or
rename-onto-blob with POSIX atomic replace), no step fails, and once both
are done exactly one physical copy survives: the blob is present and both
temp files are gone.  The initial presence of the blob is arbitrary. -/
theorem c10_commit_race_safe (sched : List Bool) (blob0 : Bool) :
    raceGood (raceRun sched (raceInit blob0)) = true := by
  refine raceInv_good _ (raceInv_run sched _ ?_)
  cases blob0 <;> decide

/-- Claim C1, code bug: with an unchanged remote listing of one file, the
first sync succeeds and creates one artifact, but the second sync does not
succeed: processing the first (now existing) file evaluates the loop-local
file_type_str, which is assigned only on the new-artifact branch
(tasks.py line 84) and so is unbound at line 105; the task raises
UnboundLocalError, the job is marked Failed, and re-sync of any non-empty
repository always fails.  No new artifact is created, but not by a
successful run. -/
theorem c1_second_sync_crashes :
    exceptOkRes runC1a.1 = some ⟨1, 1, 0⟩ ∧
    exceptErr runC1b.1 = some unboundMsg ∧
    (runC1b.2.committed.getJob 8).map Job.status = some JobStatus.failed ∧
    runC1b.2.committed.artifacts.length = 1 := by
  decide

/-- Claim C5, code bug: the inline-download condition at tasks.py line 105
reads file_type_str, which holds the classification of the most recently
created artifact, not of the current file.  With an existing artifact for
model.bin processed after a new small config file, the condition sees
"config" and downloads model.bin inline, although its classified type is
Model; the claim says an inline download happens exactly for Config or
Tokenizer files. -/
theorem c5_inline_download_stale_type :
    exceptOkRes runC5x.1 = some ⟨2, 1, 2⟩ ∧
    (runC5x.2.committed.getArtifact 50).map ModelArtifact.download_status
      = some DownloadStatus.completed ∧
    (runC5x.2.committed.getArtifact 50).map ModelArtifact.local_path
      = some (some "metadata/acme_widget/model.bin") ∧
    classify_file_type "model.bin" = "model" := by
  decide

/-- Claim C2, counterexample: a sync that fails mid-run does persist part of
its work.  Scenario C2: the artifact's size update (100 to 200, staged at
tasks.py lines 80-81) is flushed and committed by the session.commit in the
exception handler (lines 160-165) together with the job-failure record, so
the claim "no Artifact creations or updates from that run are persisted" is
false.  The repository does keep its prior status. -/
theorem c2_partial_update_persisted :
    exceptErr runC2x.1 = some unboundMsg ∧
    (dbC2x.getArtifact 50).map ModelArtifact.size_bytes = some 100 ∧
    (runC2x.2.committed.getArtifact 50).map ModelArtifact.size_bytes = some 200 ∧
    (runC2x.2.committed.getRepo 1).map ModelRepo.status = some RepoStatus.registered ∧
    (runC2x.2.committed.getJob 7).map Job.status = some JobStatus.failed := by
  decide

/-- Claim C2 (amended): for every failing run of sync_repo_metadata, every
Repository row keeps its prior status (the run never marks anything Synced),
and when a job id naming an existing Job was passed, that Job is marked
Failed with the error text as its log; however, artifact creations and
updates staged before the failure are committed together with the
job-failure record, not rolled back. -/
theorem c2_failure_keeps_status_and_records_job (env : SyncEnv) (rid : String)
    (jid : Option Nat) (db : DB) (e : String)
    (hfail : (sync_repo_metadata env rid jid db).1 = Except.error e) :
    (sync_repo_metadata env rid jid db).2.committed.repos = db.repos ∧
    (∀ j j0, jid = some j → db.getJob j = some j0 →
      ((sync_repo_metadata env rid jid db).2.committed.getJob j).map Job.status
        = some JobStatus.failed ∧
      ((sync_repo_metadata env rid jid db).2.committed.getJob j).map Job.logs
        = some (some ("Error: " ++ e))) := by
  cases sync_form env rid jid db with
  | inl h =>
    obtain ⟨e', s, heq, hrep, hjobs, hcomm, htrace⟩ := h
    rw [heq] at hfail ⊢
    dsimp only at hfail ⊢
    have he : e' = e := by
      simp only [Except.error.injEq] at hfail
      exact hfail
    subst he
    have f2 : (jobWrite jid JobStatus.running (syncStartMsg rid)
        (Session.start db)).committed.repos = db.repos := jobWrite_committed_repos _ _ _ _ rfl
    have hcr : s.committed.repos = s.staged.repos := by
      rw [hcomm, f2, hrep]
    constructor
    · unfold syncFail
      exact (jobWrite_committed_repos _ _ _ _ hcr).trans hrep
    · intro j j0 hjid h0
      subst hjid
      have hsj : s.staged.getJob j
          = some { j0 with status := JobStatus.running, logs := some (syncStartMsg rid) } := by
        rw [getJob_congr _ _ hjobs, jobWrite_staged_getJob_self]
        simp [Session.start, h0]
      unfold syncFail
      rw [jobWrite_committed_getJob_some _ _ _ _ _ hsj]
      exact ⟨rfl, rfl⟩
  | inr h =>
    obtain ⟨res, s, heq, hjobs, htrace⟩ := h
    rw [heq] at hfail
    dsimp only at hfail
    exact Except.noConfusion hfail

/-- Claim C2, witness: the amended theorem applied to scenario C2. -/
theorem c2_failure_witness :
    exceptErr (sync_repo_metadata envC2x "acme/widget" (some 7) dbC2x).1 = some unboundMsg ∧
    ((sync_repo_metadata envC2x "acme/widget" (some 7) dbC2x).2.committed.repos = dbC2x.repos ∧
    (∀ j j0, (some 7 : Option Nat) = some j → dbC2x.getJob j = some j0 →
      ((sync_repo_metadata envC2x "acme/widget" (some 7) dbC2x).2.committed.getJob j).map
        Job.status = some JobStatus.failed ∧
      ((sync_repo_metadata envC2x "acme/widget" (some 7) dbC2x).2.committed.getJob j).map
        Job.logs = some (some ("Error: " ++ unboundMsg)))) :=
  ⟨by decide,
   c2_failure_keeps_status_and_records_job envC2x "acme/widget" (some 7) dbC2x unboundMsg
     (exceptErr_eq _ _ (by decide))⟩

/-- Claim C6, counterexample: re-delivery of a sync task for a job already in
the terminal Completed state moves it back to Running (tasks.py line 44 has
no terminal-state guard) and, the run failing, on to Failed: a transition
leaves a terminal state and both Completed and Failed occur for one job. -/
theorem c6_completed_job_rerun_to_failed :
    (dbC6x.getJob 7).map Job.status = some JobStatus.completed ∧
    runC6x.2.jobTrace = [JobStatus.running, JobStatus.failed] ∧
    (runC6x.2.committed.getJob 7).map Job.status = some JobStatus.failed := by
  decide

/-- Claim C6 (amended): within a single run of either orchestrator task —
metadata sync, or artifact download provided the best-effort job-failure
write itself succeeds — on a job that is still Pending, the observed status
sequence is exactly (Pending, Running, Completed) or (Pending, Running,
Failed): statuses are monotonic and only one terminal state occurs.  The
tasks however write Running and the terminal status unconditionally, so a
re-delivered job in a terminal state is moved back to Running rather than
left alone; and when the download task's best-effort job-failure write
itself fails, the job is left stuck in Running. -/
theorem c6_single_run_trace_monotone (envS : SyncEnv) (envD : DlEnv) (rid : String)
    (dbS dbD : DB) (fsD : FS) (aid jS jD : Nat) (jS0 jD0 : Job)
    (hjS : dbS.getJob jS = some jS0) (hpS : jS0.status = JobStatus.pending)
    (hjD : dbD.getJob jD = some jD0) (hpD : jD0.status = JobStatus.pending)
    (hW : envD.jobFailWriteOk = true) :
    (jS0.status :: (sync_repo_metadata envS rid (some jS) dbS).2.jobTrace
        = [JobStatus.pending, JobStatus.running, JobStatus.completed]
      ∨ jS0.status :: (sync_repo_metadata envS rid (some jS) dbS).2.jobTrace
        = [JobStatus.pending, JobStatus.running, JobStatus.failed]) ∧
    (jD0.status :: (download_artifact envD aid (some jD) dbD fsD).2.sess.jobTrace
        = [JobStatus.pending, JobStatus.running, JobStatus.completed]
      ∨ jD0.status :: (download_artifact envD aid (some jD) dbD fsD).2.sess.jobTrace
        = [JobStatus.pending, JobStatus.running, JobStatus.failed]) := by
  constructor
  · rw [hpS]
    cases sync_trace envS rid dbS jS jS0 hjS with
    | inl h => exact Or.inl (by rw [h])
    | inr h => exact Or.inr (by rw [h])
  · rw [hpD]
    cases dl_trace envD aid jD dbD fsD jD0 hjD hW with
    | inl h => exact Or.inl (by rw [h])
    | inr h => exact Or.inr (by rw [h])

/-- Claim C6, witness: the amended theorem applied to a pending job whose
sync run fails at the remote listing, and a pending job whose download run
fails at the fetch with the job-failure write succeeding. -/
theorem c6_trace_witness :
    dbC1.getJob 7 = some ⟨7, JobStatus.pending, none⟩ ∧
    dbDl.getJob 7 = some ⟨7, JobStatus.pending, none⟩ ∧
    envDlFail.jobFailWriteOk = true ∧
    (((⟨7, JobStatus.pending, none⟩ : Job).status
        :: (sync_repo_metadata envC6x "acme/widget" (some 7) dbC1).2.jobTrace
      = [JobStatus.pending, JobStatus.running, JobStatus.completed]
    ∨ (⟨7, JobStatus.pending, none⟩ : Job).status
        :: (sync_repo_metadata envC6x "acme/widget" (some 7) dbC1).2.jobTrace
      = [JobStatus.pending, JobStatus.running, JobStatus.failed]) ∧
    ((⟨7, JobStatus.pending, none⟩ : Job).status
        :: (download_artifact envDlFail 50 (some 7) dbDl fsDl).2.sess.jobTrace
      = [JobStatus.pending, JobStatus.running, JobStatus.completed]
    ∨ (⟨7, JobStatus.pending, none⟩ : Job).status
        :: (download_artifact envDlFail 50 (some 7) dbDl fsDl).2.sess.jobTrace
      = [JobStatus.pending, JobStatus.running, JobStatus.failed])) :=
  ⟨by decide, by decide, rfl,
   c6_single_run_trace_monotone envC6x envDlFail "acme/widget" dbC1 dbDl fsDl 50 7 7
     ⟨7, JobStatus.pending, none⟩ ⟨7, JobStatus.pending, none⟩
     (by decide) rfl (by decide) rfl rfl⟩

/-- Claim C9, counterexample: an Artifact newly created by the sync for a
file that was never downloaded does not have a null content hash: the sync
sets it to the remote listing's git blob id immediately (tasks.py line 98),
here "abc", while its download status is still Pending. -/
theorem c9_new_artifact_hash_is_blob_id :
    dbC9x.artifacts = [] ∧
    (runC9x.2.committed.getArtifact 100).map ModelArtifact.content_hash
      = some (some "abc") ∧
    (runC9x.2.committed.getArtifact 100).map ModelArtifact.download_status
      = some DownloadStatus.pending := by
  decide

/-- Claim C9 (amended): the sync never introduces a null content hash: if
every artifact row has a non-null content hash before a sync run, every
artifact row in the committed database after the run (including every newly
created one, which receives the listing's git blob id) still has a non-null
content hash; only the download orchestrator later replaces it with the
computed SHA-256 digest. -/
theorem c9_sync_never_writes_null_hash (env : SyncEnv) (rid : String)
    (jid : Option Nat) (db : DB) (h0 : allHashed db.artifacts) :
    allHashed ((sync_repo_metadata env rid jid db).2.committed.artifacts) := by
  have hs1 : sessHashed (jobWrite jid JobStatus.running
      (syncStartMsg rid) (Session.start db)) :=
    sessHashed_jobWrite _ _ _ _ ⟨h0, h0⟩
  unfold sync_repo_metadata
  dsimp only
  cases hr : (jobWrite jid JobStatus.running (syncStartMsg rid)
      (Session.start db)).staged.findRepo rid with
  | none =>
    dsimp only
    exact (sessHashed_jobWrite _ _ _ _ hs1).2
  | some repo =>
    dsimp only
    cases env.listing with
    | error e =>
      dsimp only
      exact (sessHashed_jobWrite _ _ _ _ hs1).2
    | ok files =>
      dsimp only
      cases hl : syncLoop env repo.id ⟨jobWrite jid JobStatus.running
          (syncStartMsg rid) (Session.start db), none, 0, 0⟩ files with
      | error p =>
        obtain ⟨sErr, e⟩ := p
        dsimp only
        have h2 := sessHashed_syncLoop env repo.id files ⟨jobWrite jid JobStatus.running
          (syncStartMsg rid) (Session.start db), none, 0, 0⟩ hs1
        rw [hl] at h2
        simp only [slSess] at h2
        exact (sessHashed_jobWrite _ _ _ _ h2).2
      | ok stt =>
        dsimp only
        have h2 := sessHashed_syncLoop env repo.id files ⟨jobWrite jid JobStatus.running
          (syncStartMsg rid) (Session.start db), none, 0, 0⟩ hs1
        rw [hl] at h2
        simp only [slSess] at h2
        have h3 : sessHashed (Session.commit { stt.sess with
            staged := (stt.sess.staged.updRepo repo.id (fun r =>
              { r with status := RepoStatus.synced, updated_at := env.now })) }) := by
          constructor
          · intro a ha
            simp only [commit_staged, DB.updRepo] at ha
            exact h2.1 a ha
          · intro a ha
            simp only [commit_committed, DB.updRepo] at ha
            exact h2.1 a ha
        exact (sessHashed_jobWrite _ _ _ _ h3).2

/-- Claim C9, witness: the amended theorem applied to scenario C9. -/
theorem c9_hash_witness :
    allHashed dbC9x.artifacts ∧
    allHashed ((sync_repo_metadata envC9x "acme/widget" none dbC9x).2.committed.artifacts) :=
  ⟨by intro a ha; simp [dbC9x] at ha,
   c9_sync_never_writes_null_hash envC9x "acme/widget" none dbC9x
     (by intro a ha; simp [dbC9x] at ha)⟩

/-- Claim C3: on a successful run of download_artifact the digest is computed
by streaming the fetched file in chunks of at most 4096 bytes (hf_client.py
lines 151-156) and equals the digest of the whole byte sequence; afterwards
the Artifact has local path equal to the content-store path for that digest,
content hash equal to the digest, download status Completed, and
verification timestamp now (tasks.py lines 240-246). -/
theorem c3_download_success_postconditions (env : DlEnv) (aid : Nat) (jid : Option Nat)
    (db : DB) (fs : FS) (A : ModelArtifact) (R : ModelRepo) (bytes : List Nat)
    (hA : db.getArtifact aid = some A)
    (hR : db.getRepo A.model_repo_id = some R)
    (hF : env.fetch A.file_path = Except.ok bytes) :
    compute_file_hash env.hexdigest bytes = env.hexdigest bytes ∧
    (∀ c ∈ chunks4096 bytes, c.length ≤ 4096 ∧ c ≠ []) ∧
    (download_artifact env aid jid db fs).1
      = Except.ok ⟨aid, blobPathOf (env.hexdigest bytes), env.hexdigest bytes⟩ ∧
    (download_artifact env aid jid db fs).2.sess.committed.getArtifact aid
      = some (dlDone A (env.hexdigest bytes) env.now) := by
  have heq : compute_file_hash env.hexdigest bytes = env.hexdigest bytes :=
    compute_file_hash_eq _ _
  obtain ⟨h1, h2, _, _, _, _⟩ := dl_success_obs env aid jid db fs A R bytes hA hR hF
  rw [heq] at h1 h2
  exact ⟨heq, fun c hc => chunks4096Fuel_spec _ _ c hc, h1, h2⟩

/-- Claim C3, witness: the theorem applied to the concrete download
scenario. -/
theorem c3_download_witness :
    dbDl.getArtifact 50 = some art50 ∧
    dbDl.getRepo art50.model_repo_id = some repo1 ∧
    envDl.fetch art50.file_path = Except.ok [1, 2, 3] ∧
    (compute_file_hash envDl.hexdigest [1, 2, 3] = envDl.hexdigest [1, 2, 3] ∧
    (∀ c ∈ chunks4096 [1, 2, 3], c.length ≤ 4096 ∧ c ≠ []) ∧
    (download_artifact envDl 50 (some 7) dbDl fsDl).1
      = Except.ok ⟨50, blobPathOf (envDl.hexdigest [1, 2, 3]), envDl.hexdigest [1, 2, 3]⟩ ∧
    (download_artifact envDl 50 (some 7) dbDl fsDl).2.sess.committed.getArtifact 50
      = some (dlDone art50 (envDl.hexdigest [1, 2, 3]) envDl.now)) :=
  ⟨by decide, by decide, rfl,
   c3_download_success_postconditions envDl 50 (some 7) dbDl fsDl art50 repo1 [1, 2, 3]
     (by decide) (by decide) rfl⟩

/-- Claim C4: committing a file into the content store under a digest is a
dedup commit (tasks.py lines 232-238): downloading two distinct artifacts
with identical bytes leaves the blob store of the second run unchanged (the
existing blob is authoritative and the second temp file is discarded),
exactly one blob is stored under the digest, it holds the downloaded bytes,
and both Artifacts' local paths resolve to that one blob path. -/
theorem c4_dedup_single_blob (env : DlEnv) (a1 a2 : Nat) (j1 j2 : Option Nat) (db : DB)
    (fs : FS) (A1 A2 : ModelArtifact) (R1 R2 : ModelRepo) (bytes : List Nat)
    (hne : ¬ a1 = a2)
    (hA1 : db.getArtifact a1 = some A1) (hA2 : db.getArtifact a2 = some A2)
    (hR1 : db.getRepo A1.model_repo_id = some R1)
    (hR2 : db.getRepo A2.model_repo_id = some R2)
    (hF1 : env.fetch A1.file_path = Except.ok bytes)
    (hF2 : env.fetch A2.file_path = Except.ok bytes)
    (h0 : assocFind fs.blobs (compute_file_hash env.hexdigest bytes) = none) :
    (runTwice env a1 a2 j1 j2 db fs).2.fs.blobs
      = (download_artifact env a1 j1 db fs).2.fs.blobs ∧
    (runTwice env a1 a2 j1 j2 db fs).2.fs.blobs.countP
      (fun p => p.1 == compute_file_hash env.hexdigest bytes) = 1 ∧
    assocFind (runTwice env a1 a2 j1 j2 db fs).2.fs.blobs
      (compute_file_hash env.hexdigest bytes) = some bytes ∧
    ((runTwice env a1 a2 j1 j2 db fs).2.sess.committed.getArtifact a1).map
      ModelArtifact.local_path
      = some (some (blobPathOf (compute_file_hash env.hexdigest bytes))) ∧
    ((runTwice env a1 a2 j1 j2 db fs).2.sess.committed.getArtifact a2).map
      ModelArtifact.local_path
      = some (some (blobPathOf (compute_file_hash env.hexdigest bytes))) ∧
    assocFind (runTwice env a1 a2 j1 j2 db fs).2.fs.temp (tempPathOf A2.file_path)
      = none := by
  obtain ⟨o1res, o1self, o1other, o1repos, o1temp, o1blobs⟩ :=
    dl_success_obs env a1 j1 db fs A1 R1 bytes hA1 hR1 hF1
  have hA2' : (download_artifact env a1 j1 db fs).2.sess.committed.getArtifact a2
      = some A2 := (o1other a2 hne).trans hA2
  have hR2' : (download_artifact env a1 j1 db fs).2.sess.committed.getRepo
      A2.model_repo_id = some R2 := (getRepos_congr o1repos _).trans hR2
  obtain ⟨o2res, o2self, o2other, o2repos, o2temp, o2blobs⟩ :=
    dl_success_obs env a2 j2 (download_artifact env a1 j1 db fs).2.sess.committed
      (download_artifact env a1 j1 db fs).2.fs A2 R2 bytes hA2' hR2' hF2
  have hb1 : (download_artifact env a1 j1 db fs).2.fs.blobs
      = assocSet fs.blobs (compute_file_hash env.hexdigest bytes) bytes := by
    rw [o1blobs]
    unfold dedupCommit
    rw [h0]
  have hfind : assocFind (download_artifact env a1 j1 db fs).2.fs.blobs
      (compute_file_hash env.hexdigest bytes) = some bytes := by
    rw [hb1]
    exact assocFind_assocSet_self fs.blobs _ bytes h0
  have hb2 : (runTwice env a1 a2 j1 j2 db fs).2.fs.blobs
      = (download_artifact env a1 j1 db fs).2.fs.blobs := by
    unfold runTwice
    rw [o2blobs]
    unfold dedupCommit
    rw [hfind]
  refine ⟨hb2, ?_, ?_, ?_, ?_, ?_⟩
  · rw [hb2, hb1, countP_assocSet_self, assocFind_none_countP fs.blobs _ h0]
  · rw [hb2]
    exact hfind
  · have := (o2other a1 (fun h => hne h.symm)).trans o1self
    unfold runTwice
    rw [this]
    rfl
  · unfold runTwice
    rw [o2self]
    rfl
  · unfold runTwice
    rw [o2temp]
    exact assocFind_assocRemove_self _ _

/-- Claim C4, witness: the theorem applied to the two concrete artifacts with
identical bytes, starting from an empty blob store. -/
theorem c4_dedup_witness :
    ¬ (50 : Nat) = 51 ∧
    dbDl.getArtifact 50 = some art50 ∧
    dbDl.getArtifact 51 = some art51 ∧
    assocFind fsDl.blobs (compute_file_hash envDl.hexdigest [1, 2, 3]) = none ∧
    ((runTwice envDl 50 51 (some 7) none dbDl fsDl).2.fs.blobs
      = (download_artifact envDl 50 (some 7) dbDl fsDl).2.fs.blobs ∧
    (runTwice envDl 50 51 (some 7) none dbDl fsDl).2.fs.blobs.countP
      (fun p => p.1 == compute_file_hash envDl.hexdigest [1, 2, 3]) = 1 ∧
    assocFind (runTwice envDl 50 51 (some 7) none dbDl fsDl).2.fs.blobs
      (compute_file_hash envDl.hexdigest [1, 2, 3]) = some [1, 2, 3] ∧
    ((runTwice envDl 50 51 (some 7) none dbDl fsDl).2.sess.committed.getArtifact 50).map
      ModelArtifact.local_path
      = some (some (blobPathOf (compute_file_hash envDl.hexdigest [1, 2, 3]))) ∧
    ((runTwice envDl 50 51 (some 7) none dbDl fsDl).2.sess.committed.getArtifact 51).map
      ModelArtifact.local_path
      = some (some (blobPathOf (compute_file_hash envDl.hexdigest [1, 2, 3]))) ∧
    assocFind (runTwice envDl 50 51 (some 7) none dbDl fsDl).2.fs.temp
      (tempPathOf art51.file_path) = none) :=
  ⟨by decide, by decide, by decide, by decide,
   c4_dedup_single_blob envDl 50 51 (some 7) none dbDl fsDl art50 art51 repo1 repo1
     [1, 2, 3] (by decide) (by decide) (by decide) (by decide) (by decide) rfl rfl
     (by decide)⟩

/-- Claim C7: when the fetch fails after the artifact has been resolved, the
original error is what download_artifact re-raises, regardless of whether the
two best-effort failure writes succeed (tasks.py lines 263-284); when the
artifact-Failed write succeeds the Artifact is marked Failed, and when the
job write succeeds the Job is marked Failed with the error text as its
log. -/
theorem c7_failure_path_best_effort (env : DlEnv) (aid : Nat) (j : Nat) (db : DB) (fs : FS)
    (A : ModelArtifact) (R : ModelRepo) (j0 : Job) (e : String)
    (hA : db.getArtifact aid = some A)
    (hR : db.getRepo A.model_repo_id = some R)
    (hF : env.fetch A.file_path = Except.error e)
    (hj : db.getJob j = some j0) :
    (download_artifact env aid (some j) db fs).1 = Except.error e ∧
    (env.artifactFailWriteOk = true →
      ((download_artifact env aid (some j) db fs).2.sess.committed.getArtifact aid).map
        ModelArtifact.download_status = some DownloadStatus.failed) ∧
    (env.jobFailWriteOk = true →
      ((download_artifact env aid (some j) db fs).2.sess.committed.getJob j).map
        Job.status = some JobStatus.failed ∧
      ((download_artifact env aid (some j) db fs).2.sess.committed.getJob j).map
        Job.logs = some (some ("Error: " ++ e))) :=
  dl_failure_obs env aid j db fs A R j0 e hA hR hF hj

/-- Claim C7, witness: the theorem applied to a concrete failing fetch with
both best-effort writes succeeding. -/
theorem c7_failure_witness :
    dbDl.getArtifact 50 = some art50 ∧
    envDlFail.fetch art50.file_path = Except.error "conn reset" ∧
    dbDl.getJob 7 = some ⟨7, JobStatus.pending, none⟩ ∧
    ((download_artifact envDlFail 50 (some 7) dbDl fsDl).1 = Except.error "conn reset" ∧
    (envDlFail.artifactFailWriteOk = true →
      ((download_artifact envDlFail 50 (some 7) dbDl fsDl).2.sess.committed.getArtifact 50).map
        ModelArtifact.download_status = some DownloadStatus.failed) ∧
    (envDlFail.jobFailWriteOk = true →
      ((download_artifact envDlFail 50 (some 7) dbDl fsDl).2.sess.committed.getJob 7).map
        Job.status = some JobStatus.failed ∧
      ((download_artifact envDlFail 50 (some 7) dbDl fsDl).2.sess.committed.getJob 7).map
        Job.logs = some (some ("Error: " ++ "conn reset")))) :=
  ⟨by decide, rfl, by decide,
   c7_failure_path_best_effort envDlFail 50 7 dbDl fsDl art50 repo1
     ⟨7, JobStatus.pending, none⟩ "conn reset" (by decide) (by decide) rfl (by decide)⟩

end ModelHub
